import Mathlib

set_option maxRecDepth 8192

/-!
Verification of the confidential-cat-counter ML service core
(src/ml-service: policy.py, audit.py, app.py) against its
natural-language specification.

The embedding models Python JSON-like values with the inductive type
Json, Python dicts as association lists with dict update semantics,
and the canonical serialization json.dumps(x, separators=(",", ":"))
(with optional sort_keys) as serJson / serJsonSorted.  The hash
primitives (SHA-256 and HMAC-SHA256) are abstract parameters of the
definitions that use them: every claim below concerns which bytes are
fed to them, not their internals.
-/

/-!
Python JSON-like values.  Floats are carried by their JSON textual
representation (their numeric semantics is irrelevant to every claim;
only their serialized form matters).  Arrays and objects carry
mutually inductive spine types JArr and JObj so that the serializer
below is structurally recursive and evaluates inside the kernel.
-/
mutual

inductive Json where
  | null : Json
  | bool : Bool → Json
  | int : Int → Json
  | float : String → Json
  | str : String → Json
  | arr : JArr → Json
  | obj : JObj → Json

inductive JArr where
  | nil : JArr
  | cons : Json → JArr → JArr

inductive JObj where
  | nil : JObj
  | cons : String → Json → JObj → JObj

end

/-- Array spine from a list of elements. -/
def JArr.ofList : List Json → JArr
  | [] => .nil
  | x :: xs => .cons x (JArr.ofList xs)

/-- List of elements of an array spine. -/
def JArr.toList : JArr → List Json
  | .nil => []
  | .cons x xs => x :: JArr.toList xs

/-- Object spine from a list of fields. -/
def JObj.ofList : List (String × Json) → JObj
  | [] => .nil
  | (k, v) :: fs => .cons k v (JObj.ofList fs)

/-- List of fields of an object spine. -/
def JObj.toList : JObj → List (String × Json)
  | .nil => []
  | .cons k v fs => (k, v) :: JObj.toList fs

/-- JSON array value from a list of elements. -/
def jArr (xs : List Json) : Json :=
  Json.arr (JArr.ofList xs)

/-- JSON object value from a list of fields. -/
def jObj (fs : List (String × Json)) : Json :=
  Json.obj (JObj.ofList fs)

/-- A Python dict with string keys, in insertion order. -/
abbrev Dict := List (String × Json)

/-- First binding of a key, the value of d.get(k) / d[k] for a dict. -/
def dictLookup : Dict → String → Option Json
  | [], _ => none
  | (k', v) :: rest, k => if k' == k then some v else dictLookup rest k

/-- Whether the dict has a binding for the key. -/
def dictHasKey (d : Dict) (k : String) : Bool :=
  d.any (fun kv => kv.1 == k)

/-- Python dict assignment d[k] = v: update in place if the key is
present, append otherwise. -/
def dictSet (d : Dict) (k : String) (v : Json) : Dict :=
  if dictHasKey d k then
    d.map (fun kv => if kv.1 == k then (k, v) else kv)
  else
    d ++ [(k, v)]

/-- Python dict merge as in a literal with a double-star splat: apply
the updates of e to d in order. -/
def dictMerge (d : Dict) (e : Dict) : Dict :=
  e.foldl (fun acc kv => dictSet acc kv.1 kv.2) d

/-- Drop every binding of a key. -/
def removeKey (d : Dict) (k : String) : Dict :=
  d.filter (fun kv => kv.1 != k)

/-- One hex digit, lowercase, as json.dumps uses in escapes. -/
def hexDigit (n : Nat) : Char :=
  if n < 10 then Char.ofNat (48 + n) else Char.ofNat (87 + n % 16)

/-- Four-digit lowercase hex, as in a JSON backslash-u escape. -/
def hex4 (n : Nat) : String :=
  String.mk [hexDigit (n / 4096 % 16), hexDigit (n / 256 % 16),
             hexDigit (n / 16 % 16), hexDigit (n % 16)]

/-- Escape of one character inside a JSON string literal, following
json.dumps with its default ensure ascii behavior: printable ASCII
except quote and backslash is kept, everything else is escaped. -/
def escChar (c : Char) : String :=
  let n := c.toNat
  if c = '"' then "\\\""
  else if c = '\\' then "\\\\"
  else if n = 8 then "\\b"
  else if n = 9 then "\\t"
  else if n = 10 then "\\n"
  else if n = 12 then "\\f"
  else if n = 13 then "\\r"
  else if n < 32 then "\\u" ++ hex4 n
  else if n < 127 then String.singleton c
  else if n < 65536 then "\\u" ++ hex4 n
  else
    let m := n - 65536
    "\\u" ++ hex4 (55296 + m / 1024) ++ "\\u" ++ hex4 (56320 + m % 1024)

/-- JSON string literal for s, quotes included. -/
def quoteStr (s : String) : String :=
  "\"" ++ String.join (s.data.map escChar) ++ "\""

mutual

/-- Canonical serialization: json.dumps(x, separators=(",", ":")) with
insertion-order keys. -/
def serJson : Json → String
  | .null => "null"
  | .bool true => "true"
  | .bool false => "false"
  | .int n => toString n
  | .float s => s
  | .str s => quoteStr s
  | .arr xs => "[" ++ serArr xs ++ "]"
  | .obj fs => "\x7b" ++ serObj fs ++ "\x7d"

/-- Comma-separated serialization of array elements. -/
def serArr : JArr → String
  | .nil => ""
  | .cons x .nil => serJson x
  | .cons x (JArr.cons y rest) => serJson x ++ "," ++ serArr (JArr.cons y rest)

/-- Comma-separated serialization of object fields. -/
def serObj : JObj → String
  | .nil => ""
  | .cons k v .nil => quoteStr k ++ ":" ++ serJson v
  | .cons k v (JObj.cons k2 v2 rest) => quoteStr k ++ ":" ++ serJson v ++ "," ++ serObj (JObj.cons k2 v2 rest)

end

/-- Lexicographic code-point order on character lists, the order
Python compares strings with. -/
def charListLe : List Char → List Char → Bool
  | [], _ => true
  | _ :: _, [] => false
  | a :: as, b :: bs =>
    if a.toNat < b.toNat then true
    else if b.toNat < a.toNat then false
    else charListLe as bs

/-- String order by code points, as sort_keys compares keys. -/
def strLe (a b : String) : Bool :=
  charListLe a.data b.data

/-- Stable insertion of a field into a key-sorted field spine, by the
code-point order on keys that sort_keys uses. -/
def insertByKey (k : String) (v : Json) : JObj → JObj
  | .nil => .cons k v .nil
  | .cons k2 v2 fs =>
    if strLe k k2 then .cons k v (.cons k2 v2 fs) else .cons k2 v2 (insertByKey k v fs)

/-- Insertion sort of object fields by key. -/
def sortFields : JObj → JObj
  | .nil => .nil
  | .cons k v fs => insertByKey k v (sortFields fs)

mutual

/-- Recursively sort every object of a value by key, the effect of
sort_keys=True in json.dumps. -/
def sortJson : Json → Json
  | .null => .null
  | .bool b => .bool b
  | .int n => .int n
  | .float s => .float s
  | .str s => .str s
  | .arr xs => .arr (sortJsonArr xs)
  | .obj fs => .obj (sortFields (sortJsonFields fs))

/-- sortJson mapped over array elements. -/
def sortJsonArr : JArr → JArr
  | .nil => .nil
  | .cons x xs => .cons (sortJson x) (sortJsonArr xs)

/-- sortJson mapped over field values. -/
def sortJsonFields : JObj → JObj
  | .nil => .nil
  | .cons k v fs => .cons k (sortJson v) (sortJsonFields fs)

end

/-- Canonical sorted-key serialization:
json.dumps(x, separators=(",", ":"), sort_keys=True). -/
def serJsonSorted (j : Json) : String :=
  serJson (sortJson j)

/-- UTF-8 encoding of one character. -/
def charUtf8 (c : Char) : List Nat :=
  let n := c.toNat
  if n < 128 then [n]
  else if n < 2048 then [192 + n / 64, 128 + n % 64]
  else if n < 65536 then [224 + n / 4096, 128 + n / 64 % 64, 128 + n % 64]
  else [240 + n / 262144, 128 + n / 4096 % 64, 128 + n / 64 % 64, 128 + n % 64]

/-- UTF-8 encoding of a string, the bytes of s.encode in Python. -/
def strToUtf8 (s : String) : List Nat :=
  (s.data.map charUtf8).flatten

/-- Whether a byte is a UTF-8 continuation byte. -/
def isCont (b : Nat) : Bool :=
  128 ≤ b && b < 192

/-- Validating UTF-8 decoder: the behavior of bytes.decode in Python,
returning none where Python raises UnicodeDecodeError (invalid leading
bytes, truncated sequences, overlong forms, surrogates, values past
the Unicode range). -/
def utf8Decode : List Nat → Option (List Char)
  | [] => some []
  | b :: rest =>
    if b < 128 then
      match utf8Decode rest with
      | some cs => some (Char.ofNat b :: cs)
      | none => none
    else if b < 194 then none
    else if b < 224 then
      match rest with
      | c1 :: rest2 =>
        if isCont c1 then
          match utf8Decode rest2 with
          | some cs => some (Char.ofNat ((b - 192) * 64 + (c1 - 128)) :: cs)
          | none => none
        else none
      | [] => none
    else if b < 240 then
      match rest with
      | c1 :: c2 :: rest3 =>
        if isCont c1 && isCont c2 then
          let cp := (b - 224) * 4096 + (c1 - 128) * 64 + (c2 - 128)
          if cp < 2048 then none
          else if 55296 ≤ cp && cp < 57344 then none
          else
            match utf8Decode rest3 with
            | some cs => some (Char.ofNat cp :: cs)
            | none => none
        else none
      | _ => none
    else if b < 245 then
      match rest with
      | c1 :: c2 :: c3 :: rest4 =>
        if isCont c1 && isCont c2 && isCont c3 then
          let cp := (b - 240) * 262144 + (c1 - 128) * 4096 + (c2 - 128) * 64 + (c3 - 128)
          if cp < 65536 || 1114112 ≤ cp then none
          else
            match utf8Decode rest4 with
            | some cs => some (Char.ofNat cp :: cs)
            | none => none
        else none
      | _ => none
    else none

/-- Prefix test on character lists. -/
def listStartsWith : List Char → List Char → Bool
  | [], _ => true
  | _ :: _, [] => false
  | p :: ps, h :: hs => p == h && listStartsWith ps hs

/-- Substring test on character lists: the pattern occurs at some
position of the haystack. -/
def hasSubList : List Char → List Char → Bool
  | [], pat => pat.isEmpty
  | h :: t, pat => listStartsWith pat (h :: t) || hasSubList t pat

/-- Python substring containment, pat in hay for strings. -/
def strContainsSub (hay pat : String) : Bool :=
  hasSubList hay.data pat.data

/-- PolicyDecision from policy.py: action is allow, deny or redact,
with ordered reason and rule id lists and an optional redacted
payload. -/
structure PolicyDecision where
  action : String
  reasons : List String
  rule_ids : List String
  redacted_output : Option Dict := none

/-- The hard-coded conservative default bundle of
policy._default_policy_bundle, in source order. -/
def defaultPolicyBundle : Dict :=
  [("version", Json.str "1.0"),
   ("max_response_size", Json.int 2048),
   ("forbidden_patterns", jArr [Json.str "image/", Json.str "data:", Json.str "/9j/", Json.str "iVBOR"]),
   ("min_confidence", Json.float "0.0"),
   ("max_cats", Json.int 20)]

/-- Canonical bytes of the default bundle, the content recomputed by
load_policy_bundle on fallback:
json.dumps(bundle, separators=(",", ":")).encode("utf-8"). -/
def defaultBundleBytes : List Nat :=
  strToUtf8 (serJson (jObj defaultPolicyBundle))

/-- Embedding of policy.load_policy_bundle.  The SHA-256 hex digest and
the JSON parser are abstract parameters; file is the raw bytes at the
configured path, or none when no path is configured or the file does
not exist.  A UTF-8 decode failure is returned as an error: the source
only catches json.JSONDecodeError, so bytes.decode raising
UnicodeDecodeError propagates out of the loader. -/
def load_policy_bundle (hash : List Nat → String) (parse : String → Option Json) :
    Option (List Nat) → Except String (Json × String)
  | some content =>
    match utf8Decode content with
    | none => .error "UnicodeDecodeError"
    | some cs =>
      match parse (String.mk cs) with
      | some bundle => .ok (bundle, hash content)
      | none => .ok (jObj defaultPolicyBundle, hash defaultBundleBytes)
  | none => .ok (jObj defaultPolicyBundle, hash defaultBundleBytes)

/-- Python isinstance(v, int): true for ints and for bools, which are
ints in Python. -/
def pyIsInt : Json → Bool
  | .int _ => true
  | .bool _ => true
  | _ => false

/-- Integer value of an int-like Python value; 0 elsewhere (the source
never compares a non-int-like value, see pyIsInt guards). -/
def pyToInt : Json → Int
  | .int n => n
  | .bool b => if b then 1 else 0
  | _ => 0

/-- Embedding of policy.evaluate_input_policy: deny with
file_too_large when the declared size is an int above 25 MiB,
otherwise allow.  The bundle argument is unused by the source. -/
def evaluate_input_policy (job_data : Dict) (_bundle : Dict) : PolicyDecision :=
  let size := (dictLookup job_data "size").getD Json.null
  if pyIsInt size && pyToInt size > 25 * 1024 * 1024 then
    { action := "deny", reasons := ["file_too_large"], rule_ids := ["in.max_upload_size"] }
  else
    { action := "allow", reasons := [], rule_ids := [] }

/-- Embedding of policy._redact_output: keep only the fixed allowed
fields, in this fixed order, when present.  The bundle argument is
unused by the source. -/
def redactOutput (output : Dict) : Dict :=
  (["cats", "confidence", "processing_time", "model"]).filterMap
    (fun k => (dictLookup output k).map (fun v => (k, v)))

/-- Value of int(bundle.get(k, dflt)) for the int-valued bundle
thresholds.  Faithful on well-formed bundles (bundleWF): in Python a
non-int-coercible configured value would raise instead. -/
def bundleGetIntD (bundle : Dict) (k : String) (dflt : Int) : Int :=
  match dictLookup bundle k with
  | some (.int n) => n
  | some (.bool b) => if b then 1 else 0
  | _ => dflt

/-- The forbidden_patterns list of a bundle; its string elements.
Faithful on well-formed bundles (bundleWF): in Python a non-string
pattern would raise on the containment test. -/
def forbiddenPatterns (bundle : Dict) : List String :=
  match dictLookup bundle "forbidden_patterns" with
  | some (.arr xs) => (JArr.toList xs).filterMap (fun j => match j with | .str s => some s | _ => none)
  | _ => []

/-- Well-formedness of a bundle as the evaluators consume it: the two
int thresholds are absent or ints, and forbidden_patterns is absent or
a list of strings.  On these bundles the embedding agrees with the
Python accessors everywhere. -/
def bundleWF (b : Dict) : Bool :=
  (match dictLookup b "max_response_size" with
   | none => true
   | some (.int _) => true
   | _ => false) &&
  (match dictLookup b "max_cats" with
   | none => true
   | some (.int _) => true
   | _ => false) &&
  (match dictLookup b "forbidden_patterns" with
   | none => true
   | some (.arr xs) => (JArr.toList xs).all (fun j => match j with | .str _ => true | _ => false)
   | _ => false)

/-- Byte length of the canonical serialization of the output dict,
len(json.dumps(output, separators=(",", ":")).encode("utf-8")). -/
def canonicalSerLen (output : Dict) : Nat :=
  (strToUtf8 (serJson (jObj output))).length

/-- First output rule: the canonical serialization exceeds
max_response_size. -/
def sizeViolation (output bundle : Dict) : Bool :=
  (canonicalSerLen output : Int) > bundleGetIntD bundle "max_response_size" 2048

/-- Second output rule: some string-typed top-level field of the
output contains some forbidden pattern as a substring. -/
def forbiddenViolation (output bundle : Dict) : Bool :=
  output.any (fun kv =>
    match kv.2 with
    | .str s => (forbiddenPatterns bundle).any (fun pat => strContainsSub s pat)
    | _ => false)

/-- Third output rule: the cats field is an int above max_cats. -/
def catsViolation (output bundle : Dict) : Bool :=
  match dictLookup output "cats" with
  | some v => pyIsInt v && pyToInt v > bundleGetIntD bundle "max_cats" 20
  | none => false

/-- Embedding of policy.evaluate_output_policy: the three rules in
source order, first violation wins, each redacting to the fixed
allowed field set; allow when none fires. -/
def evaluate_output_policy (output bundle : Dict) : PolicyDecision :=
  if sizeViolation output bundle then
    { action := "redact", reasons := ["response_too_large"], rule_ids := ["out.size"],
      redacted_output := some (redactOutput output) }
  else if forbiddenViolation output bundle then
    { action := "redact", reasons := ["forbidden_pattern"], rule_ids := ["out.forbidden_pattern"],
      redacted_output := some (redactOutput output) }
  else if catsViolation output bundle then
    { action := "redact", reasons := ["cats_exceed_limit"], rule_ids := ["out.cats_limit"],
      redacted_output := some (redactOutput output) }
  else
    { action := "allow", reasons := [], rule_ids := [] }

/-- Embedding of policy.decision_to_dict. -/
def decision_to_dict (d : PolicyDecision) : Dict :=
  let base : Dict :=
    [("action", Json.str d.action),
     ("reasons", jArr (d.reasons.map Json.str)),
     ("rule_ids", jArr (d.rule_ids.map Json.str))]
  match d.redacted_output with
  | some r => base ++ [("redacted_output", jObj r)]
  | none => base

/-- Initial value of the process-wide audit counter audit._SEQ. -/
def SEQ_INIT : Nat := 0

/-- Embedding of audit.sign_record: the HMAC-SHA256 hex digest, under
the audit key, of json.dumps(record, separators=(",", ":"),
sort_keys=True).encode("utf-8").  The HMAC is an abstract parameter
taking the key and the canonical serialization (the serialization is
ASCII, so the string determines the UTF-8 bytes). -/
def sign_record (hm : String → String → String) (key : String) (record : Dict) : String :=
  hm key (serJsonSorted (jObj record))

/-- One call of audit.emit_audit, with the ambient inputs the source
reads made explicit: the timestamp, the simulated flag from the
environment, and whether the stdout sink write succeeds. -/
structure EmitInput where
  event : String
  data : Dict
  ts : Int
  sim : Bool
  sinkOk : Bool

/-- Result of one audit.emit_audit call: the new value of the global
counter, the enriched and signed record it constructed, and what the
caller sees — the record, or the propagated sink-write exception. -/
structure EmitOutput where
  seq : Nat
  enriched : Dict
  callerResult : Except String Dict

/-- The common fields emit_audit stamps before merging the caller
data: event, timestamp, simulated flag, and the incremented sequence
number. -/
def auditBase (event : String) (ts : Int) (sim : Bool) (seq1 : Nat) : Dict :=
  [("event", Json.str event),
   ("timestamp", Json.int ts),
   ("simulated", Json.bool sim),
   ("sequence", Json.int (Int.ofNat seq1))]

/-- Embedding of audit.emit_audit: increment the counter, merge the
common fields with the caller data, sign everything, then write to the
sink.  The counter is incremented and the record fully constructed and
signed before the sink write; the print call is not guarded, so a sink
failure propagates to the caller as an exception. -/
def emit_audit (hm : String → String → String) (key : String) (seq : Nat)
    (inp : EmitInput) : EmitOutput :=
  let seq1 := seq + 1
  let body := dictMerge (auditBase inp.event inp.ts inp.sim seq1) inp.data
  let sig := sign_record hm key body
  let enriched := dictSet body "signature" (Json.str sig)
  { seq := seq1,
    enriched := enriched,
    callerResult := if inp.sinkOk then .ok enriched else .error "audit sink write failed" }

/-- The record constructed by one emit_audit call. -/
def emittedRecord (hm : String → String → String) (key : String) (seq : Nat)
    (inp : EmitInput) : Dict :=
  (emit_audit hm key seq inp).enriched

/-- A sequence of emit_audit calls threading the process-wide counter:
final counter value and the emitted records in order. -/
def runEmits (hm : String → String → String) (key : String) :
    List EmitInput → Nat → Nat × List Dict
  | [], s => (s, [])
  | i :: is, s =>
    let o := emit_audit hm key s i
    let r := runEmits hm key is o.seq
    (r.1, o.enriched :: r.2)

/-- Modelled from the spec: no verifier exists in the source tree (the
spec requires that verification with the same key over mutated bytes
must fail); verification recomputes sign_record over every field
except signature and compares with the stored signature field. -/
def verify_record (hm : String → String → String) (key : String) (r : Dict) : Bool :=
  match dictLookup r "signature" with
  | some (.str s) => sign_record hm key (removeKey r "signature") == s
  | _ => false

/-- Python str() of a scalar value, as an f-string would render it;
container renderings are abbreviated (no claim depends on them). -/
def pyStrOf : Json → String
  | .str s => s
  | .int n => toString n
  | .bool true => "True"
  | .bool false => "False"
  | .null => "None"
  | .float s => s
  | _ => "..."

/-- Python float() coercion to a float value, for the values the
pipeline feeds it (floats, ints, bools); other types would raise in
Python and are mapped to 0.0 here (never exercised by the claims). -/
def pyFloatOf : Json → Json
  | .float s => .float s
  | .int n => .float (toString n ++ ".0")
  | .bool true => .float "1.0"
  | .bool false => .float "0.0"
  | _ => .float "0.0"

/-- A single-quote character, for Python list reprs. -/
def sqChar : String := String.singleton (Char.ofNat 39)

/-- Python repr of a list of strings, as interpolated into the
PermissionError messages of app.process_job. -/
def pyReprList (l : List String) : String :=
  "[" ++ String.intercalate ", " (l.map (fun s => sqChar ++ s ++ sqChar)) ++ "]"

/-- Observable effects of one app.process_job call: the setex writes
to the job store in order (key and stored record), the emitted audit
events in order (event name and data), and whether detect_cats ran. -/
structure JobEffects where
  writes : List (String × Json)
  audits : List (String × Dict)
  inferenceInvoked : Bool

/-- The in-place update the except-branch of process_job applies
before its terminal write: status failed, the exception message, and
failedAt. -/
def failedUpdate (j : Dict) (err : String) (now : Json) : Dict :=
  dictSet (dictSet (dictSet j "status" (Json.str "failed")) "error" (Json.str err)) "failedAt" now

/-- The idempotency test of process_job on a parsed existing record:
existing_data.get("status") in ["processing", "completed"]. -/
def statusIsInFlight (fs : Dict) : Bool :=
  match dictLookup fs "status" with
  | some (.str st) => st == "processing" || st == "completed"
  | _ => false

/-- Embedding of app.process_job.  Explicit inputs stand for the
ambient state the source reads: existing is the parsed job record
currently persisted under the job key (none when absent), fileExists
whether the uploaded image path exists, detectResult the value
detect_cats would return (the numpy-scalar normalization step is the
identity on embedded values), now the time.time() stamp.  The job
envelope is job_data.  Returns the observable effects.  Uncaught
per-job exceptions (policy deny, missing file, missing result fields,
a non-dict persisted record) take the except branch, which writes the
failed record. -/
def process_job (bundle : Dict) (policy_digest : String) (existing : Option Json)
    (fileExists : Bool) (detectResult : Dict) (now : Json) (job_data : Dict) : JobEffects :=
  let jobId := (dictLookup job_data "id").getD Json.null
  let filename := pyStrOf ((dictLookup job_data "filename").getD Json.null)
  let jobKey := "job:" ++ pyStrOf jobId
  let fail := fun (j : Dict) (err : String) (ws : List (String × Json))
      (as : List (String × Dict)) (inf : Bool) =>
    ({ writes := ws ++ [(jobKey, jObj (failedUpdate j err now))],
       audits := as, inferenceInvoked := inf } : JobEffects)
  let cont : JobEffects :=
    let j1 := dictSet (dictSet job_data "status" (Json.str "processing")) "processing_started" now
    let w1 : List (String × Json) := [(jobKey, jObj j1)]
    let dIn := evaluate_input_policy j1 bundle
    let a1 : List (String × Dict) :=
      [("input_policy_decision",
        [("job_id", jobId), ("decision", jObj (decision_to_dict dIn)),
         ("policy_digest", Json.str policy_digest)])]
    if dIn.action == "deny" then
      fail j1 ("Input policy denied: " ++ pyReprList dIn.reasons) w1 a1 false
    else if !fileExists then
      fail j1 ("Image file not found: /app/uploads/" ++ filename) w1 a1 false
    else
      let result := detectResult
      let dOut := evaluate_output_policy result bundle
      let a2 := a1 ++
        [("output_policy_decision",
          [("job_id", jobId), ("decision", jObj (decision_to_dict dOut)),
           ("policy_digest", Json.str policy_digest)])]
      if dOut.action == "deny" then
        fail j1 ("Output policy denied: " ++ pyReprList dOut.reasons) w1 a2 true
      else
        let result2 :=
          if dOut.action == "redact" then
            match dOut.redacted_output with
            | some r => r
            | none => result
          else result
        match dictLookup result2 "processing_time", dictLookup result2 "model" with
        | some pt, some mdl =>
          let j2 :=
            dictSet (dictSet (dictSet (dictSet (dictSet (dictSet j1
              "status" (Json.str "completed"))
              "cats" (Json.int (pyToInt ((dictLookup result2 "cats").getD (Json.int 0)))))
              "confidence" (pyFloatOf ((dictLookup result2 "confidence").getD (Json.float "0.0"))))
              "processingTime" pt)
              "model" mdl)
              "completedAt" now
          { writes := w1 ++ [(jobKey, jObj j2)], audits := a2, inferenceInvoked := true }
        | _, _ => fail j1 "KeyError" w1 a2 true
  match existing with
  | some (.obj fs) =>
    if statusIsInFlight fs.toList then
      { writes := [], audits := [], inferenceInvoked := false }
    else cont
  | some _ => fail job_data "AttributeError" [] [] false
  | none => cont

/-- Concrete job envelope for the C1 scenarios. -/
def c1JobData : Dict :=
  [("id", Json.str "j1"), ("filename", Json.str "cat.jpg"), ("size", Json.int 1000)]

/-- A persisted job record already in the terminal failed status. -/
def c1FailedRecord : Json :=
  jObj [("id", Json.str "j1"), ("status", Json.str "failed")]

/-- Concrete detect_cats result for the C1 scenarios. -/
def c1DetectResult : Dict :=
  [("cats", Json.int 1), ("confidence", Json.float "0.9"),
   ("processing_time", Json.str "1.0s"), ("model", Json.str "mock")]

/-- The allow-scenario output payload of the spec. -/
def c2AllowOut : Dict :=
  [("cats", Json.int 1), ("confidence", Json.float "0.9"),
   ("processing_time", Json.str "1.0s"), ("model", Json.str "mock")]

/-- An output whose only forbidden substring sits in a nested
sub-mapping, not in a top-level string field. -/
def c9NestedOut : Dict :=
  [("cats", Json.int 1), ("inner", jObj [("note", Json.str "data:image/png")])]

/-- The forbidden-pattern scenario output of the spec: the model field
carries a data URI. -/
def c10Out : Dict :=
  [("cats", Json.int 1), ("confidence", Json.float "0.9"),
   ("processing_time", Json.str "1.0s"), ("model", Json.str "data:image/png;base64,AAAA")]

/-- Two concrete emit_audit calls, the second with a failing sink. -/
def c6Inputs : List EmitInput :=
  [{ event := "input_policy_decision", data := [("job_id", Json.str "a")],
     ts := 5, sim := true, sinkOk := true },
   { event := "output_policy_decision", data := [], ts := 6, sim := true, sinkOk := false }]

/-- A concrete injective stand-in for the HMAC parameter. -/
def c7Hm : String → String → String := fun _ s => s

/-- A concrete emit_audit call for the tampering scenario. -/
def c7Input : EmitInput :=
  { event := "input_policy_decision", data := [("job_id", Json.str "j1")],
    ts := 100, sim := true, sinkOk := true }

/-- The emitted record of c7Input with its event field mutated and its
signature field kept. -/
def c7Tampered : Dict :=
  dictSet (emittedRecord c7Hm "k" 0 c7Input) "event" (Json.str "tampered")

/-- A concrete emit_audit call whose sink write fails. -/
def c8Input : EmitInput :=
  { event := "output_policy_decision", data := [("job_id", Json.str "j9")],
    ts := 7, sim := true, sinkOk := false }

theorem JObj.toList_ofList (fs : List (String × Json)) : (JObj.ofList fs).toList = fs := by
  induction fs with
  | nil => rfl
  | cons a rest ih =>
    cases a
    simp [JObj.ofList, JObj.toList, ih]

theorem dictLookup_map_update (d : Dict) (k0 : String) (v : Json) (k : String)
    (h : k0 ≠ k) :
    dictLookup (d.map (fun kv => if kv.1 == k0 then (k0, v) else kv)) k = dictLookup d k := by
  induction d with
  | nil => rfl
  | cons a rest ih =>
    cases a with
    | mk a1 a2 =>
      simp only [List.map_cons]
      by_cases ha : (a1 == k0) = true
      · have ha' : a1 = k0 := by simpa using ha
        subst ha'
        rw [if_pos ha]
        have h2 : (a1 == k) = false := beq_eq_false_iff_ne.mpr h
        simp only [dictLookup, h2, Bool.false_eq_true, if_false]
        exact ih
      · rw [if_neg ha]
        simp only [dictLookup]
        rw [ih]

theorem dictLookup_append_ne (d : Dict) (k0 : String) (v : Json) (k : String)
    (h : k0 ≠ k) :
    dictLookup (d ++ [(k0, v)]) k = dictLookup d k := by
  induction d with
  | nil => simp [dictLookup, beq_eq_false_iff_ne.mpr h]
  | cons a rest ih =>
    cases a with
    | mk a1 a2 =>
      simp only [List.cons_append, dictLookup]
      split <;> simp_all

theorem dictLookup_dictSet_ne (d : Dict) (k0 : String) (v : Json) (k : String)
    (h : k0 ≠ k) : dictLookup (dictSet d k0 v) k = dictLookup d k := by
  unfold dictSet
  split
  · exact dictLookup_map_update d k0 v k h
  · exact dictLookup_append_ne d k0 v k h

theorem dictLookup_append_single (d : Dict) (k : String) (v : Json)
    (h : d.all (fun kv => kv.1 != k) = true) :
    dictLookup (d ++ [(k, v)]) k = some v := by
  induction d with
  | nil => simp [dictLookup]
  | cons a rest ih =>
    cases a with
    | mk a1 a2 =>
      simp only [List.all_cons, Bool.and_eq_true, bne_iff_ne, ne_eq] at h
      simp only [List.cons_append, dictLookup]
      have hne : (a1 == k) = false := beq_eq_false_iff_ne.mpr h.1
      simp only [hne, Bool.false_eq_true, if_false]
      exact ih (by simpa using h.2)

theorem removeKey_append_single (d : Dict) (k : String) (v : Json)
    (h : d.all (fun kv => kv.1 != k) = true) :
    removeKey (d ++ [(k, v)]) k = d := by
  unfold removeKey
  rw [List.filter_append]
  have h1 : d.filter (fun kv => kv.1 != k) = d :=
    List.filter_eq_self.mpr (fun a ha => (List.all_eq_true.mp h) a ha)
  have h2 : ([(k, v)] : Dict).filter (fun kv => kv.1 != k) = [] := by
    simp [List.filter]
  rw [h1, h2, List.append_nil]

theorem dictHasKey_false_of_all_ne (d : Dict) (k : String)
    (h : d.all (fun kv => kv.1 != k) = true) : dictHasKey d k = false := by
  unfold dictHasKey
  induction d with
  | nil => rfl
  | cons a rest ih =>
    simp only [List.all_cons, Bool.and_eq_true] at h
    simp only [List.any_cons, Bool.or_eq_false_iff]
    exact ⟨by simpa using h.1, ih h.2⟩

theorem dictSet_of_absent (d : Dict) (k : String) (v : Json)
    (h : dictHasKey d k = false) : dictSet d k v = d ++ [(k, v)] := by
  unfold dictSet
  simp [h]

theorem dictSet_all_ne (d : Dict) (k0 : String) (v : Json) (k : String)
    (hd : d.all (fun kv => kv.1 != k) = true) (hk : (k0 != k) = true) :
    (dictSet d k0 v).all (fun kv => kv.1 != k) = true := by
  unfold dictSet
  split
  · rw [List.all_eq_true] at hd ⊢
    intro a ha
    rw [List.mem_map] at ha
    obtain ⟨b, hb, hab⟩ := ha
    by_cases hbk : (b.1 == k0) = true
    · simp only [hbk, if_true] at hab
      subst hab
      exact hk
    · simp only [hbk, Bool.false_eq_true, if_false] at hab
      subst hab
      exact hd b hb
  · rw [List.all_append]
    simp [hd, hk]

theorem dictMerge_all_ne (d e : Dict) (k : String)
    (hd : d.all (fun kv => kv.1 != k) = true)
    (he : e.all (fun kv => kv.1 != k) = true) :
    (dictMerge d e).all (fun kv => kv.1 != k) = true := by
  induction e generalizing d with
  | nil => exact hd
  | cons a rest ih =>
    simp only [List.all_cons, Bool.and_eq_true] at he
    exact ih (dictSet d a.1 a.2) (dictSet_all_ne d a.1 a.2 k hd he.1) he.2

theorem dictLookup_merge_absent (d e : Dict) (k : String)
    (he : e.all (fun kv => kv.1 != k) = true) :
    dictLookup (dictMerge d e) k = dictLookup d k := by
  induction e generalizing d with
  | nil => rfl
  | cons a rest ih =>
    simp only [List.all_cons, Bool.and_eq_true] at he
    have step : dictMerge d (a :: rest) = dictMerge (dictSet d a.1 a.2) rest := rfl
    rw [step, ih (dictSet d a.1 a.2) he.2]
    exact dictLookup_dictSet_ne d a.1 a.2 k (bne_iff_ne.mp he.1)

theorem emit_audit_sequence (hm : String → String → String) (key : String) (s : Nat)
    (i : EmitInput) (hd : i.data.all (fun kv => kv.1 != "sequence") = true) :
    dictLookup (emit_audit hm key s i).enriched "sequence"
      = some (Json.int (Int.ofNat (s + 1))) := by
  have e1 : (emit_audit hm key s i).enriched
      = dictSet (dictMerge (auditBase i.event i.ts i.sim (s + 1)) i.data) "signature"
          (Json.str (sign_record hm key (dictMerge (auditBase i.event i.ts i.sim (s + 1)) i.data))) := rfl
  rw [e1, dictLookup_dictSet_ne _ _ _ _ (by decide), dictLookup_merge_absent _ _ _ hd]
  rfl

theorem emit_audit_enriched_append (hm : String → String → String) (key : String) (s : Nat)
    (i : EmitInput) (hd : i.data.all (fun kv => kv.1 != "signature") = true) :
    (emit_audit hm key s i).enriched
      = dictMerge (auditBase i.event i.ts i.sim (s + 1)) i.data
        ++ [("signature", Json.str (sign_record hm key
              (dictMerge (auditBase i.event i.ts i.sim (s + 1)) i.data)))] := by
  have hbase : (auditBase i.event i.ts i.sim (s + 1)).all (fun kv => kv.1 != "signature") = true := rfl
  have hbody := dictMerge_all_ne (auditBase i.event i.ts i.sim (s + 1)) i.data "signature" hbase hd
  have hhas := dictHasKey_false_of_all_ne _ _ hbody
  have e1 : (emit_audit hm key s i).enriched
      = dictSet (dictMerge (auditBase i.event i.ts i.sim (s + 1)) i.data) "signature"
          (Json.str (sign_record hm key (dictMerge (auditBase i.event i.ts i.sim (s + 1)) i.data))) := rfl
  rw [e1, dictSet_of_absent _ _ _ hhas]

theorem runEmits_sequences (hm : String → String → String) (key : String)
    (ins : List EmitInput) (s : Nat)
    (h : ins.all (fun i => i.data.all (fun kv => kv.1 != "sequence")) = true) :
    (runEmits hm key ins s).2.map (fun r => dictLookup r "sequence")
      = (List.range' (s + 1) ins.length).map (fun k => some (Json.int (Int.ofNat k))) := by
  induction ins generalizing s with
  | nil => rfl
  | cons i rest ih =>
    simp only [List.all_cons, Bool.and_eq_true] at h
    have hstep : (runEmits hm key (i :: rest) s).2
        = (emit_audit hm key s i).enriched :: (runEmits hm key rest (s + 1)).2 := rfl
    rw [hstep]
    simp only [List.length_cons, List.range', List.map_cons]
    rw [emit_audit_sequence hm key s i h.1, ih (s + 1) h.2]

/-- C6: the audit sequence counter starts at SEQ_INIT = 0 at process
startup and every emit_audit call increments it by exactly one before
stamping the record, so over any sequence of emit calls within one
process the emitted records carry the sequence numbers 1, 2, 3, ... —
strictly increasing with no gaps and never reset (provided no caller
data overrides the stamped sequence field). -/
theorem c6_audit_sequence_gapless (hm : String → String → String) (key : String)
    (ins : List EmitInput)
    (h : ins.all (fun i => i.data.all (fun kv => kv.1 != "sequence")) = true) :
    (runEmits hm key ins SEQ_INIT).2.map (fun r => dictLookup r "sequence")
      = (List.range' 1 ins.length).map (fun k => some (Json.int (Int.ofNat k))) :=
  runEmits_sequences hm key ins 0 h

/-- Witness for C6 at two concrete emit calls: the records carry
sequence numbers 1 and 2. -/
theorem c6_audit_sequence_gapless_witness :
    (runEmits c7Hm "k" c6Inputs SEQ_INIT).2.map (fun r => dictLookup r "sequence")
      = [some (Json.int 1), some (Json.int 2)] := by
  rw [c6_audit_sequence_gapless c7Hm "k" c6Inputs rfl]
  rfl

/-- C7: the signature field of every emitted audit record equals the
HMAC-SHA256, under the audit key, of the canonical sorted-key
serialization of all of the other fields of the record; consequently,
assuming the MAC is collision-free under this key, verifying a record
whose body fields were mutated so that this canonical serialization
changes, with the same key, fails. -/
theorem c7_signature_covers_all_other_fields (hm : String → String → String)
    (key : String) (s : Nat) (i : EmitInput)
    (hinj : Function.Injective (hm key))
    (hd : i.data.all (fun kv => kv.1 != "signature") = true) :
    dictLookup (emittedRecord hm key s i) "signature"
      = some (Json.str (sign_record hm key (removeKey (emittedRecord hm key s i) "signature")))
    ∧ ∀ m : Dict,
        dictLookup m "signature" = dictLookup (emittedRecord hm key s i) "signature" →
        serJsonSorted (jObj (removeKey m "signature"))
          ≠ serJsonSorted (jObj (removeKey (emittedRecord hm key s i) "signature")) →
        verify_record hm key m = false := by
  have hbase : (auditBase i.event i.ts i.sim (s + 1)).all (fun kv => kv.1 != "signature") = true := rfl
  have hbody := dictMerge_all_ne (auditBase i.event i.ts i.sim (s + 1)) i.data "signature" hbase hd
  have happ : emittedRecord hm key s i
      = dictMerge (auditBase i.event i.ts i.sim (s + 1)) i.data
        ++ [("signature", Json.str (sign_record hm key
              (dictMerge (auditBase i.event i.ts i.sim (s + 1)) i.data)))] :=
    emit_audit_enriched_append hm key s i hd
  have hrm : removeKey (emittedRecord hm key s i) "signature"
      = dictMerge (auditBase i.event i.ts i.sim (s + 1)) i.data := by
    rw [happ]
    exact removeKey_append_single _ _ _ hbody
  have hlk : dictLookup (emittedRecord hm key s i) "signature"
      = some (Json.str (sign_record hm key (dictMerge (auditBase i.event i.ts i.sim (s + 1)) i.data))) := by
    rw [happ]
    exact dictLookup_append_single _ _ _ hbody
  constructor
  · rw [hlk, hrm]
  · intro m hm1 hne
    rw [hrm] at hne
    unfold verify_record
    rw [hm1, hlk]
    show (sign_record hm key (removeKey m "signature")
        == sign_record hm key (dictMerge (auditBase i.event i.ts i.sim (s + 1)) i.data)) = false
    apply beq_eq_false_iff_ne.mpr
    intro heq
    exact hne (hinj heq)

/-- Witness for C7: a concrete emitted record whose event field is
tampered with fails verification. -/
theorem c7_signature_covers_all_other_fields_witness :
    verify_record c7Hm "k" c7Tampered = false := by
  have h := c7_signature_covers_all_other_fields c7Hm "k" 0 c7Input
    (fun a b hab => hab) rfl
  exact h.2 c7Tampered rfl (by decide)

/-- C8 counterexample: at a concrete emit whose sink write fails, the
error propagates to the caller (the caller result is the exception),
contradicting the claim that a sink failure is logged and never
propagated. -/
theorem c8_sink_failure_propagates :
    (emit_audit c7Hm "k" SEQ_INIT c8Input).callerResult
      = Except.error "audit sink write failed" := rfl

/-- C8 amended: the record content is always generated and signed
before the sink write, identically whether or not the sink write
succeeds; but when the sink write fails the exception propagates to
the caller instead of being logged and swallowed, so emission can fail
the caller. -/
theorem c8_record_signed_regardless_of_sink (hm : String → String → String)
    (key : String) (seq : Nat) (event : String) (data : Dict) (ts : Int) (sim : Bool) :
    (emit_audit hm key seq { event := event, data := data, ts := ts, sim := sim, sinkOk := false }).enriched
      = (emit_audit hm key seq { event := event, data := data, ts := ts, sim := sim, sinkOk := true }).enriched
    ∧ (emit_audit hm key seq { event := event, data := data, ts := ts, sim := sim, sinkOk := false }).callerResult
      = Except.error "audit sink write failed"
    ∧ (emit_audit hm key seq { event := event, data := data, ts := ts, sim := sim, sinkOk := true }).callerResult
      = Except.ok ((emit_audit hm key seq { event := event, data := data, ts := ts, sim := sim, sinkOk := true }).enriched) :=
  ⟨rfl, rfl, rfl⟩

/-- C3: for every job whose declared size is an int of at most 25 MiB,
evaluate_input_policy returns Allow; for every job whose declared size
exceeds 25 MiB, it returns Deny with reason file_too_large and rule id
in.max_upload_size. -/
theorem c3_input_policy_size_gate (job bundle : Dict) (n : Int)
    (h : dictLookup job "size" = some (Json.int n)) :
    (n ≤ 25 * 1024 * 1024 →
      evaluate_input_policy job bundle
        = { action := "allow", reasons := [], rule_ids := [] })
    ∧ (25 * 1024 * 1024 < n →
      evaluate_input_policy job bundle
        = { action := "deny", reasons := ["file_too_large"], rule_ids := ["in.max_upload_size"] }) := by
  unfold evaluate_input_policy
  rw [h]
  simp only [Option.getD_some, pyIsInt, pyToInt, Bool.true_and]
  constructor
  · intro hle
    have hd : decide (n > 25 * 1024 * 1024) = false := decide_eq_false (by omega)
    simp [hd]
    omega
  · intro hlt
    have hd : decide (n > 25 * 1024 * 1024) = true := decide_eq_true (by omega)
    simp [hd]
    omega

/-- Witness for C3 at the 30 MiB scenario of the spec. -/
theorem c3_input_policy_size_gate_witness :
    evaluate_input_policy [("size", Json.int 31457280)] defaultPolicyBundle
      = { action := "deny", reasons := ["file_too_large"], rule_ids := ["in.max_upload_size"] } :=
  (c3_input_policy_size_gate [("size", Json.int 31457280)] defaultPolicyBundle 31457280 rfl).2
    (by decide)

/-- C2: on a well-formed bundle, evaluate_output_policy returns Allow
with no redacted payload exactly when the canonical serialization
length is within max_response_size, no string-typed top-level field
contains a forbidden pattern, and the cats count is within max_cats;
otherwise it redacts, reporting exactly the first violated rule in the
fixed order size, forbidden-pattern, count, with the payload
restricted to the fixed field set. -/
theorem c2_output_policy_characterization (output bundle : Dict)
    (_hwf : bundleWF bundle = true) :
    ((evaluate_output_policy output bundle).action = "allow"
        ∧ (evaluate_output_policy output bundle).redacted_output = none
      ↔ sizeViolation output bundle = false ∧ forbiddenViolation output bundle = false
        ∧ catsViolation output bundle = false)
    ∧ (sizeViolation output bundle = true →
        evaluate_output_policy output bundle
          = { action := "redact", reasons := ["response_too_large"], rule_ids := ["out.size"],
              redacted_output := some (redactOutput output) })
    ∧ (sizeViolation output bundle = false → forbiddenViolation output bundle = true →
        evaluate_output_policy output bundle
          = { action := "redact", reasons := ["forbidden_pattern"], rule_ids := ["out.forbidden_pattern"],
              redacted_output := some (redactOutput output) })
    ∧ (sizeViolation output bundle = false → forbiddenViolation output bundle = false →
        catsViolation output bundle = true →
        evaluate_output_policy output bundle
          = { action := "redact", reasons := ["cats_exceed_limit"], rule_ids := ["out.cats_limit"],
              redacted_output := some (redactOutput output) }) := by
  cases hs : sizeViolation output bundle <;>
    cases hf : forbiddenViolation output bundle <;>
      cases hc : catsViolation output bundle <;>
        simp [evaluate_output_policy, hs, hf, hc]

/-- Witness for C2 at the allow scenario of the spec. -/
theorem c2_output_policy_characterization_witness :
    (evaluate_output_policy c2AllowOut defaultPolicyBundle).action = "allow" :=
  (((c2_output_policy_characterization c2AllowOut defaultPolicyBundle rfl).1).mpr
    ⟨rfl, rfl, rfl⟩).1

/-- C9 counterexample: an output within the size limit whose only
forbidden substring sits in a string field nested inside a sub-mapping
is allowed, not redacted: the scan covers only top-level string
fields. -/
theorem c9_nested_string_not_scanned :
    evaluate_output_policy c9NestedOut defaultPolicyBundle
      = { action := "allow", reasons := [], rule_ids := [] }
    ∧ strContainsSub "data:image/png" "data:" = true
    ∧ sizeViolation c9NestedOut defaultPolicyBundle = false :=
  ⟨rfl, rfl, rfl⟩

/-- C9 amended: the forbidden-pattern rule scans the top-level
string-typed fields of the result only; whenever the output is within
the size limit and some top-level string field contains a forbidden
pattern, the result is Redact with reason forbidden_pattern (a
forbidden substring nested inside sub-mappings or lists does not
trigger the rule). -/
theorem c9_forbidden_scan_top_level_only (output bundle : Dict)
    (h1 : sizeViolation output bundle = false)
    (h2 : forbiddenViolation output bundle = true) :
    evaluate_output_policy output bundle
      = { action := "redact", reasons := ["forbidden_pattern"], rule_ids := ["out.forbidden_pattern"],
          redacted_output := some (redactOutput output) } := by
  unfold evaluate_output_policy
  simp [h1, h2]

/-- Witness for the amended C9 at the data-URI model field scenario of
the spec. -/
theorem c9_forbidden_scan_top_level_only_witness :
    evaluate_output_policy c10Out defaultPolicyBundle
      = { action := "redact", reasons := ["forbidden_pattern"], rule_ids := ["out.forbidden_pattern"],
          redacted_output := some (redactOutput c10Out) } :=
  c9_forbidden_scan_top_level_only c10Out defaultPolicyBundle rfl rfl

/-- C10: redaction does not sanitize retained fields: the data-URI
model field output is redacted for a forbidden pattern, yet the
redacted payload still contains the forbidden substring in its model
field, so re-running the output policy on the redacted payload redacts
again instead of allowing. -/
theorem c10_redaction_not_sanitizing :
    (evaluate_output_policy c10Out defaultPolicyBundle).action = "redact"
    ∧ (evaluate_output_policy c10Out defaultPolicyBundle).reasons = ["forbidden_pattern"]
    ∧ (evaluate_output_policy c10Out defaultPolicyBundle).redacted_output
        = some (redactOutput c10Out)
    ∧ (match dictLookup (redactOutput c10Out) "model" with
       | some (Json.str s) => strContainsSub s "data:"
       | _ => false) = true
    ∧ (evaluate_output_policy (redactOutput c10Out) defaultPolicyBundle).action = "redact"
    ∧ (evaluate_output_policy (redactOutput c10Out) defaultPolicyBundle).reasons
        = ["forbidden_pattern"] :=
  ⟨rfl, rfl, rfl, rfl, rfl, rfl⟩

/-- C4: demonstration against the claim that a configured signing key
and mismatched expected signature abort loading: load_policy_bundle
reads no signature configuration at all (it has no such inputs in the
source), and on any content that decodes and parses it returns the
parsed bundle with the content digest — there is no fatal
signature-mismatch path, although the test suite of the repository
expects a ValueError on mismatch. -/
theorem c4_loader_has_no_signature_check (hash : List Nat → String)
    (parse : String → Option Json) (content : List Nat) (cs : List Char) (b : Json)
    (h1 : utf8Decode content = some cs) (h2 : parse (String.mk cs) = some b) :
    load_policy_bundle hash parse (some content) = .ok (b, hash content) := by
  simp only [load_policy_bundle]
  rw [h1]
  simp [h2]

/-- Witness for C4: loading concrete parseable content succeeds
unconditionally. -/
theorem c4_loader_has_no_signature_check_witness :
    load_policy_bundle (fun _ => "d0") (fun _ => some (jObj defaultPolicyBundle)) (some [91, 93])
      = .ok (jObj defaultPolicyBundle, "d0") :=
  c4_loader_has_no_signature_check (fun _ => "d0") (fun _ => some (jObj defaultPolicyBundle))
    [91, 93] [Char.ofNat 91, Char.ofNat 93] (jObj defaultPolicyBundle) rfl rfl

/-- C5 counterexample: on content that is not valid UTF-8 the loader
does not fall back to the default bundle — the decode error
propagates, so it fails to return any bundle and digest pair. -/
theorem c5_nonutf8_content_errors :
    load_policy_bundle (fun _ => "d0") (fun _ => none) (some [255])
      = .error "UnicodeDecodeError" := rfl

/-- C5 amended: when no content is configured, or the content decodes
as UTF-8, the loader always returns a bundle and digest pair, and the
digest is always the hash of the bytes in effect: the raw file bytes
when they parse, the canonical serialization of the default bundle on
parse fallback or on a missing file; content that does not decode as
UTF-8 raises instead of falling back. -/
theorem c5_loader_totality_and_digest (hash : List Nat → String)
    (parse : String → Option Json) (file : Option (List Nat)) :
    (file = none →
      load_policy_bundle hash parse file
        = .ok (jObj defaultPolicyBundle, hash defaultBundleBytes))
    ∧ (∀ content cs, file = some content → utf8Decode content = some cs →
        (parse (String.mk cs) = none →
          load_policy_bundle hash parse file
            = .ok (jObj defaultPolicyBundle, hash defaultBundleBytes))
        ∧ ∀ b, parse (String.mk cs) = some b →
            load_policy_bundle hash parse file = .ok (b, hash content)) := by
  constructor
  · intro h
    subst h
    rfl
  · intro content cs hfile hdec
    subst hfile
    constructor
    · intro hp
      simp only [load_policy_bundle]
      rw [hdec]
      simp [hp]
    · intro b hp
      simp only [load_policy_bundle]
      rw [hdec]
      simp [hp]

/-- Witness for the amended C5: with no configured content the loader
returns the default bundle and the digest of its canonical bytes. -/
theorem c5_loader_totality_and_digest_witness :
    load_policy_bundle (fun _ => "d") (fun _ => none) none
      = .ok (jObj defaultPolicyBundle, "d") :=
  (c5_loader_totality_and_digest (fun _ => "d") (fun _ => none) none).1 rfl

/-- C1 counterexample: re-delivering a job whose persisted record has
the terminal status failed is not a no-op: the job is fully
reprocessed — the record is rewritten twice (processing, then
completed), both policy audit records are emitted, and inference
runs. -/
theorem c1_failed_status_reprocessed :
    (process_job defaultPolicyBundle "digest" (some c1FailedRecord) true c1DetectResult
      (Json.float "100.0") c1JobData).writes.length = 2
    ∧ (process_job defaultPolicyBundle "digest" (some c1FailedRecord) true c1DetectResult
      (Json.float "100.0") c1JobData).audits.length = 2
    ∧ (process_job defaultPolicyBundle "digest" (some c1FailedRecord) true c1DetectResult
      (Json.float "100.0") c1JobData).inferenceInvoked = true :=
  ⟨rfl, rfl, rfl⟩

/-- C1 amended: re-delivering a job id whose persisted record has
status processing or completed is a no-op — the persisted record is
left unchanged, no policy audit record is emitted, and inference is
not invoked; a record with status failed is reprocessed. -/
theorem c1_inflight_redelivery_noop (bundle : Dict) (policy_digest : String) (fs : Dict)
    (fileExists : Bool) (detectResult : Dict) (now : Json) (job_data : Dict) (st : String)
    (hst : dictLookup fs "status" = some (Json.str st))
    (hor : st = "processing" ∨ st = "completed") :
    process_job bundle policy_digest (some (jObj fs)) fileExists detectResult now job_data
      = { writes := [], audits := [], inferenceInvoked := false } := by
  have hin : statusIsInFlight fs = true := by
    unfold statusIsInFlight
    rw [hst]
    rcases hor with rfl | rfl <;> rfl
  unfold process_job jObj
  simp [JObj.toList_ofList, hin]

/-- Witness for the amended C1 at a concrete processing-status
record. -/
theorem c1_inflight_redelivery_noop_witness :
    process_job defaultPolicyBundle "digest"
      (some (jObj [("id", Json.str "j1"), ("status", Json.str "processing")])) true
      c1DetectResult (Json.float "100.0") c1JobData
      = { writes := [], audits := [], inferenceInvoked := false } :=
  c1_inflight_redelivery_noop defaultPolicyBundle "digest"
    [("id", Json.str "j1"), ("status", Json.str "processing")] true c1DetectResult
    (Json.float "100.0") c1JobData "processing" rfl (Or.inl rfl)
